import Mathlib

/-!
Verification of the Feed-the-Kraken rules engine.

The definitions below are a shallow embedding of `src/game/GameState.ts` and
`src/game/TurnManager.ts`.  JavaScript maps keyed by user id are modelled as
lists in insertion (= join) order; in-place object mutation is modelled by
rebuilding the corresponding list entry; `Math.random` driven choices
(Fisher-Yates shuffle, tie-breaks) are modelled by passing the random outcome
as an explicit argument; code that would crash at runtime (indexing with NaN
after a modulo by zero, indexing past an array end) is modelled with Option,
`none` standing for the crash.  Slack I/O (messages, modals, timers) carries
no game state and is dropped; the information a modal or button set offers to
its user (its choice list, its numeric bounds) is kept, because the callbacks
only ever deliver one of the offered values.
-/

namespace FeedTheKraken

/-- Hidden role of a player (type PlayerRole in GameState.ts). -/
inductive PlayerRole where
  | SAILOR
  | PIRATE
  | CULT_LEADER
  | CULTIST
deriving DecidableEq, Repr

/-- Game phase (type GamePhase in GameState.ts). -/
inductive GamePhase where
  | LOBBY
  | NIGHT
  | NAVIGATION_SELECTION
  | MUTINY
  | NAVIGATION
  | VOTING
  | FEED_KRAKEN
deriving DecidableEq, Repr

instance : BEq GamePhase := ⟨fun a b => decide (a = b)⟩

instance : LawfulBEq GamePhase where
  eq_of_beq h := by simpa [BEq.beq] using h
  rfl := by simp [BEq.beq]

/-- Game status (type GameStatus in GameState.ts). -/
inductive GameStatus where
  | WAITING
  | IN_PROGRESS
  | COMPLETED
deriving DecidableEq, Repr

/-- Winning faction (type WinnerType in GameState.ts; its null is Option.none
here). -/
inductive WinnerType where
  | SAILORS
  | PIRATES
  | CULT
deriving DecidableEq, Repr

/-- One player record (interface Player in GameState.ts).  Gun counts are
non-negative integers, modelled as Nat. -/
structure Player where
  userId : String
  username : String
  role : Option PlayerRole
  isAlive : Bool
  guns : Nat
  characterCard : Option String
  characterUsed : Bool
deriving DecidableEq, Repr

/-- The long-lived session state (class GameState in GameState.ts).  The
players map preserves insertion order, so it is a list in join order whose
entries are keyed by userId. -/
structure GameState where
  channelId : String
  hostId : String
  players : List Player
  status : GameStatus
  currentTurn : Nat
  currentPhase : GamePhase
  captain : Option String
  lieutenant : Option String
  navigator : Option String
  shipPosition : Int × Int
  cultLeader : Option String
deriving DecidableEq, Repr

/-- getPlayer (GameState.ts): lookup by user id. -/
def GameState.getPlayer (g : GameState) (userId : String) : Option Player :=
  g.players.find? (fun p => p.userId == userId)

/-- getAlivePlayers (GameState.ts): the living players, in join order. -/
def GameState.getAlivePlayers (g : GameState) : List Player :=
  g.players.filter (fun p => p.isAlive)

/-- rotateCaptain (GameState.ts lines 191-196).  JavaScript findIndex yields -1
when the captain is not among the alive players, making the next index 0.
With zero alive players the source computes (i+1) % 0 = NaN and crashes
reading .userId of undefined; that is the `none` branch here. -/
def GameState.rotateCaptain (g : GameState) : Option GameState :=
  let alivePlayers := g.getAlivePlayers
  let idxSucc : Nat :=
    match alivePlayers.findIdx? (fun p => g.captain == some p.userId) with
    | some i => i + 1
    | none => 0
  if h : alivePlayers.length = 0 then
    none
  else
    let next : Player :=
      alivePlayers.get ⟨idxSucc % alivePlayers.length, Nat.mod_lt _ (Nat.pos_of_ne_zero h)⟩
    some { g with captain := some next.userId }

/-- setNavigationTeam (GameState.ts lines 198-201). -/
def GameState.setNavigationTeam (g : GameState) (lieutenantId navigatorId : String) : GameState :=
  { g with lieutenant := some lieutenantId, navigator := some navigatorId }

/-- The in-place `player.isAlive = false` mutation of eliminatePlayer, written
back through the id-keyed map. -/
def markDeadList (players : List Player) (userId : String) : List Player :=
  players.map (fun p => if p.userId == userId then { p with isAlive := false } else p)

/-- eliminatePlayer (GameState.ts lines 203-212): set isAlive to false, then if
the target was captain, rotateCaptain (which can crash, hence Option). -/
def GameState.eliminatePlayer (g : GameState) (userId : String) : Option GameState :=
  match g.getPlayer userId with
  | none => some g
  | some _ =>
    let g' := { g with players := markDeadList g.players userId }
    if g'.captain == some userId then g'.rotateCaptain else some g'

/-- checkWinCondition (GameState.ts lines 214-228) reads only shipPosition;
this is its winner as a function of the coordinates (the constant reason
strings are irrelevant to the claims). -/
def checkWinPosition (x y : Int) : Option WinnerType :=
  if x ≥ 10 ∧ y ≥ 5 then some .SAILORS
  else if x ≥ 10 ∧ y ≤ -5 then some .PIRATES
  else if y ≥ 10 then some .CULT
  else none

/-- checkWinCondition applied to a session. -/
def GameState.checkWinCondition (g : GameState) : Option WinnerType :=
  checkWinPosition g.shipPosition.1 g.shipPosition.2

/-- moveShip (GameState.ts lines 230-233). -/
def GameState.moveShip (g : GameState) (dx dy : Int) : GameState :=
  { g with shipPosition := (g.shipPosition.1 + dx, g.shipPosition.2 + dy) }

/-- The phase cycle of nextPhase (GameState.ts lines 236-241). -/
def phaseOrder : List GamePhase :=
  [.NAVIGATION_SELECTION, .MUTINY, .NAVIGATION, .VOTING]

/-- nextPhase (GameState.ts lines 235-252).  JavaScript indexOf yields -1 off
the cycle; off the cycle or at its end: increment the turn, reset to
NAVIGATION_SELECTION and rotate the captain (which can crash when nobody is
alive, hence Option). -/
def GameState.nextPhase (g : GameState) : Option GameState :=
  let currentIndex : Int :=
    match phaseOrder.findIdx? (fun p => p == g.currentPhase) with
    | some i => (i : Int)
    | none => -1
  if currentIndex = -1 ∨ currentIndex = (phaseOrder.length : Int) - 1 then
    GameState.rotateCaptain
      { g with currentTurn := g.currentTurn + 1, currentPhase := .NAVIGATION_SELECTION }
  else
    some { g with currentPhase := phaseOrder.getD (currentIndex.toNat + 1) .NAVIGATION_SELECTION }

/-- Role-count table of assignRoles (GameState.ts lines 130-153), as the tuple
(pirateCount, cultLeaderCount, cultistCount).  The final else covers every
count of at least 9 (and, undefined behaviour per the spec, counts below 5). -/
def roleCounts (playerCount : Nat) : Nat × Nat × Nat :=
  if playerCount = 5 then (2, 1, 0)
  else if playerCount = 6 then (2, 1, 0)
  else if playerCount = 7 then (2, 1, 1)
  else if playerCount = 8 then (3, 1, 1)
  else (3, 1, 2)

/-- The role the index loops of assignRoles (GameState.ts lines 155-180) give
to position i of the shuffled array: cult leaders first, then pirates, then
cultists, then sailors. -/
def roleAt (playerCount : Nat) (i : Nat) : PlayerRole :=
  let c := roleCounts playerCount
  if i < c.2.1 then .CULT_LEADER
  else if i < c.2.1 + c.1 then .PIRATE
  else if i < c.2.1 + c.1 + c.2.2 then .CULTIST
  else .SAILOR

/-- The in-place `playerArray[index].role = r` mutation, written back through
the id-keyed map. -/
def setRole (id : String) (r : PlayerRole) (players : List Player) : List Player :=
  players.map (fun p => if p.userId == id then { p with role := some r } else p)

/-- The assignment loops of assignRoles: the player at position i of the
shuffled array receives roleAt n i, written back into the insertion-ordered
player list. -/
def applyAssignments (n : Nat) : Nat → List Player → List Player → List Player
  | _, players, [] => players
  | i, players, q :: rest => applyAssignments n (i + 1) (setRole q.userId (roleAt n i) players) rest

/-- assignRoles (GameState.ts lines 120-181).  The in-place Fisher-Yates
shuffle draws from Math.random, modelled by passing the shuffled array as the
argument `shuffled` (a permutation of g.players).  The assignment loops index
past the array end — a crash — exactly when the player count is below the
number of special roles, hence Option.  The cult-leader loop also records
shuffled[0].userId in the cultLeader field. -/
def GameState.assignRoles (g : GameState) (shuffled : List Player) : Option GameState :=
  let n := g.players.length
  let c := roleCounts n
  if shuffled.length < c.2.1 + c.1 + c.2.2 then none
  else
    some { g with
      players := applyAssignments n 0 g.players shuffled,
      cultLeader := shuffled.head?.map (fun p => p.userId) }

/-- C7: checkWinCondition is a pure function of the ship position alone; its
cases, read in the order of the source's if chain, return Sailors when
x ≥ 10 and y ≥ 5, Pirates when x ≥ 10 and y ≤ -5, Cult when y ≥ 10 (and the
earlier Sailors case does not apply), and no winner otherwise; position
(10,5) yields Sailors, (10,-5) Pirates, (0,10) Cult and (9,5) no winner.
Being a function of the state, evaluating it mutates nothing. -/
theorem checkWinCondition_spec :
    (∀ g₁ g₂ : GameState, g₁.shipPosition = g₂.shipPosition →
      g₁.checkWinCondition = g₂.checkWinCondition) ∧
    (∀ x y : Int,
      (x ≥ 10 → y ≥ 5 → checkWinPosition x y = some .SAILORS) ∧
      (x ≥ 10 → y ≤ -5 → checkWinPosition x y = some .PIRATES) ∧
      (y ≥ 10 → ¬(x ≥ 10 ∧ y ≥ 5) → checkWinPosition x y = some .CULT) ∧
      (¬(x ≥ 10 ∧ y ≥ 5) → ¬(x ≥ 10 ∧ y ≤ -5) → ¬(y ≥ 10) →
        checkWinPosition x y = none)) ∧
    checkWinPosition 10 5 = some .SAILORS ∧
    checkWinPosition 10 (-5) = some .PIRATES ∧
    checkWinPosition 0 10 = some .CULT ∧
    checkWinPosition 9 5 = none := by
  refine ⟨?_, ?_, by decide, by decide, by decide, by decide⟩
  · intro g₁ g₂ h
    simp [GameState.checkWinCondition, h]
  · intro x y
    refine ⟨fun hx hy => ?_, fun hx hy => ?_, fun hy hn => ?_, fun h₁ h₂ h₃ => ?_⟩ <;>
      simp only [checkWinPosition] <;> split_ifs <;> first | rfl | omega

/-- Witness for C7 at a concrete interior point. -/
theorem checkWinCondition_spec_witness :
    checkWinPosition 12 7 = some WinnerType.SAILORS :=
  (checkWinCondition_spec.2.1 12 7).1 (by decide) (by decide)

/-- Per-game controller state (class TurnManager in TurnManager.ts).  The
Slack client and the channel id carry no game state; the timer handle only
drives when resolveMutiny runs, not what it computes. -/
structure TurnManager where
  game : GameState
  mutinyVotes : List (String × Nat)
  mutinyEligibleVoters : List String
  selectedLieutenant : Option String
  selectedNavigator : Option String
  captainNavigationChoice : Option (Int × Int)
  lieutenantNavigationChoice : Option (Int × Int)
  captainChoiceLocked : Bool
  lieutenantChoiceLocked : Bool
  navigatorChoiceLocked : Bool
  lastMutinySucceeded : Bool
deriving DecidableEq, Repr

/-- mutinyPhase (TurnManager.ts lines 160-208), state part: clear the votes
and recompute the eligible voters as the alive players other than the
captain.  The announcement and the 60-second fallback timer are I/O. -/
def TurnManager.mutinyPhase (tm : TurnManager) : TurnManager :=
  { tm with
    mutinyVotes := [],
    mutinyEligibleVoters :=
      (tm.game.getAlivePlayers.filter (fun p => !(some p.userId == tm.game.captain))).map
        (fun p => p.userId) }

/-- Sum of the recorded vote submissions (resolveMutiny, TurnManager.ts lines
217-226). -/
def TurnManager.totalGunsUsed (tm : TurnManager) : Nat :=
  (tm.mutinyVotes.map (fun v => v.2)).sum

/-- Sum of the eligible voters' current gun counts (TurnManager.ts lines
233-236); a missing player contributes 0, as the source's `?.guns || 0`. -/
def TurnManager.totalCrewGuns (tm : TurnManager) : Nat :=
  (tm.mutinyEligibleVoters.map (fun id =>
    match tm.game.getPlayer id with
    | some p => p.guns
    | none => 0)).sum

/-- The quorum threshold of resolveMutiny (TurnManager.ts line 238);
Nat division is the floor of the source's Math.floor. -/
def TurnManager.mutinyThreshold (tm : TurnManager) : Nat :=
  tm.totalCrewGuns / 2 + 1

/-- The success test of resolveMutiny (TurnManager.ts line 239). -/
def TurnManager.mutinySucceeded (tm : TurnManager) : Bool :=
  decide (tm.mutinyThreshold ≤ tm.totalGunsUsed)

/-- The eligible crew of the spec's electCaptainByGuns: alive players
excluding the (previous) captain. -/
def eligibleCrew (g : GameState) : List Player :=
  g.getAlivePlayers.filter (fun p => !(some p.userId == g.captain))

/-- The maximum gun count among the eligible crew (0 when empty). -/
def maxEligibleGuns (g : GameState) : Nat :=
  ((eligibleCrew g).map (fun p => p.guns)).foldl Nat.max 0

/-- The eligible crew members holding the maximum gun count. -/
def tiedCrew (g : GameState) : List Player :=
  (eligibleCrew g).filter (fun p => p.guns == maxEligibleGuns g)

/-- Modelled from the spec: `electCaptainByGuns` is invoked by resolveMutiny
(TurnManager.ts line 261) but its definition is absent from the provided
sources.  Spec section 4.2: among eligible crew (alive, excluding the previous
captain), find the maximum gun count; break ties uniformly at random among all
players at that maximum; assign as new captain.  The uniform random tie-break
is modelled by the index argument `tieBreak`, reduced modulo the number of
tied candidates, so every tied candidate is reachable. -/
def GameState.electCaptainByGuns (g : GameState) (tieBreak : Nat) : GameState :=
  if h : (tiedCrew g).length = 0 then g
  else
    let winner : Player :=
      (tiedCrew g).get ⟨tieBreak % (tiedCrew g).length, Nat.mod_lt _ (Nat.pos_of_ne_zero h)⟩
    { g with captain := some winner.userId }

/-- resolveMutiny (TurnManager.ts lines 210-285), state part: decide success
from the gun tally, then either elect a new captain and loop back to
NAVIGATION_SELECTION, or keep the captain and move on to NAVIGATION.  Timer
clearing and the result announcement are I/O; the trailing executePhase
dispatch is modelled by the separate phase handlers. -/
def TurnManager.resolveMutiny (tm : TurnManager) (tieBreak : Nat) : TurnManager :=
  if tm.mutinySucceeded then
    { tm with
      game := { tm.game.electCaptainByGuns tieBreak with currentPhase := .NAVIGATION_SELECTION },
      lastMutinySucceeded := true }
  else
    { tm with
      game := { tm.game with currentPhase := .NAVIGATION },
      lastMutinySucceeded := false }

/-- Outcome of openMutinyVoteModal (TurnManager.ts lines 635-695): no modal
for an unknown or dead player (silent return), an ephemeral rejection for the
captain, or a modal whose integer number input is bounded by min_value 0 and
max_value guns. -/
inductive MutinyModal where
  | noModal
  | captainCannotVote
  | modal (minGuns maxGuns : Nat)
deriving DecidableEq, Repr

/-- openMutinyVoteModal (TurnManager.ts lines 635-695), state-relevant part. -/
def TurnManager.openMutinyVoteModal (tm : TurnManager) (userId : String) : MutinyModal :=
  match tm.game.getPlayer userId with
  | none => .noModal
  | some p =>
    if !p.isAlive then .noModal
    else if some userId == tm.game.captain then .captainCannotVote
    else .modal 0 p.guns

/-- Map.set on the vote map: replace an existing entry for the key, else
append. -/
def setVote : List (String × Nat) → String → Nat → List (String × Nat)
  | [], id, v => [(id, v)]
  | (k, w) :: rest, id, v =>
      if k == id then (id, v) :: rest else (k, w) :: setVote rest id v

/-- handleViewSubmission for the mutiny modal (TurnManager.ts lines 697-722),
state part: record the submitted gun count.  (The eager resolveMutiny call
once every eligible voter has voted is driven by the controller.) -/
def TurnManager.handleViewSubmission (tm : TurnManager) (userId : String) (guns : Nat) : TurnManager :=
  { tm with mutinyVotes := setVote tm.mutinyVotes userId guns }

/-- The complete vote flow of one voter: the modal opened by cast_mutiny_vote
followed by its submission.  A vote is recorded only when a modal was opened
and the value respects the modal's number input bounds (is_decimal_allowed
false, min_value 0, max_value guns — enforced by the form before the
submission callback can fire). -/
def TurnManager.submitMutinyVote (tm : TurnManager) (userId : String) (guns : Nat) : TurnManager :=
  match tm.openMutinyVoteModal userId with
  | .modal lo hi =>
      if lo ≤ guns ∧ guns ≤ hi then tm.handleViewSubmission userId guns else tm
  | _ => tm

/-- A convenient restatement: the success branch taken by resolveMutiny is
exactly the mutinySucceeded test. -/
theorem resolveMutiny_lastMutinySucceeded (tm : TurnManager) (t : Nat) :
    (tm.resolveMutiny t).lastMutinySucceeded = tm.mutinySucceeded := by
  unfold TurnManager.resolveMutiny
  split <;> simp_all

/-- C1: the mutiny resolution takes the success branch iff the sum of the
recorded vote submissions is at least floor(totalCrewGuns / 2) + 1, where
totalCrewGuns sums the eligible voters' current gun counts; with
totalCrewGuns = 9 the threshold is 5, so totalGunsUsed = 5 succeeds and
totalGunsUsed = 4 fails. -/
theorem resolveMutiny_threshold (tm : TurnManager) (t : Nat) :
    ((tm.resolveMutiny t).lastMutinySucceeded = true ↔
      (tm.mutinyVotes.map (fun v => v.2)).sum ≥
        (tm.mutinyEligibleVoters.map (fun id =>
          match tm.game.getPlayer id with
          | some p => p.guns
          | none => 0)).sum / 2 + 1) ∧
    (tm.totalCrewGuns = 9 → tm.mutinyThreshold = 5 ∧
      (tm.totalGunsUsed = 5 → (tm.resolveMutiny t).lastMutinySucceeded = true) ∧
      (tm.totalGunsUsed = 4 → (tm.resolveMutiny t).lastMutinySucceeded = false)) := by
  constructor
  · rw [resolveMutiny_lastMutinySucceeded]
    simp [TurnManager.mutinySucceeded, TurnManager.mutinyThreshold, TurnManager.totalGunsUsed,
      TurnManager.totalCrewGuns, ge_iff_le]
  · intro h9
    have hth : tm.mutinyThreshold = 5 := by
      simp [TurnManager.mutinyThreshold, h9]
    refine ⟨hth, fun h5 => ?_, fun h4 => ?_⟩
    · rw [resolveMutiny_lastMutinySucceeded]
      simp [TurnManager.mutinySucceeded, hth, h5]
    · rw [resolveMutiny_lastMutinySucceeded]
      simp [TurnManager.mutinySucceeded, hth, h4]

/-- A player record with default lobby fields, as addPlayer builds them. -/
def mkPlayer (id : String) (alive : Bool) (guns : Nat) : Player :=
  { userId := id, username := id, role := none, isAlive := alive, guns := guns,
    characterCard := none, characterUsed := false }

/-- A four-player in-progress session used by concrete evaluations: captain a,
crew b, c, d, everyone alive with 3 guns. -/
def gameC1 : GameState :=
  { channelId := "ch", hostId := "a",
    players := [mkPlayer "a" true 3, mkPlayer "b" true 3, mkPlayer "c" true 3, mkPlayer "d" true 3],
    status := .IN_PROGRESS, currentTurn := 1, currentPhase := .MUTINY,
    captain := some "a", lieutenant := some "b", navigator := some "c",
    shipPosition := (0, 0), cultLeader := some "d" }

/-- A controller over gameC1 with votes b:3 and c:2 recorded, d silent. -/
def tmC1 : TurnManager :=
  { game := gameC1, mutinyVotes := [("b", 3), ("c", 2)],
    mutinyEligibleVoters := ["b", "c", "d"],
    selectedLieutenant := none, selectedNavigator := none,
    captainNavigationChoice := none, lieutenantNavigationChoice := none,
    captainChoiceLocked := false, lieutenantChoiceLocked := false,
    navigatorChoiceLocked := false, lastMutinySucceeded := false }

/-- Witness for C1: nine crew guns, five committed, mutiny succeeds. -/
theorem resolveMutiny_threshold_witness :
    tmC1.totalCrewGuns = 9 ∧ tmC1.totalGunsUsed = 5 ∧
    (tmC1.resolveMutiny 0).lastMutinySucceeded = true :=
  ⟨by decide, by decide, ((resolveMutiny_threshold tmC1 0).2 (by decide)).2.1 (by decide)⟩

/-- navigationPhase (TurnManager.ts lines 287-311), state part: reset the
proposer choices and all three locks before the choice cards go out. -/
def TurnManager.navigationPhase (tm : TurnManager) : TurnManager :=
  { tm with
    captainNavigationChoice := none,
    lieutenantNavigationChoice := none,
    captainChoiceLocked := false,
    lieutenantChoiceLocked := false,
    navigatorChoiceLocked := false }

/-- The four cardinal directions of sendNavigationChoiceCards
(TurnManager.ts lines 315-320), as movement vectors. -/
def allDirections : List (Int × Int) := [(0, 1), (0, -1), (1, 0), (-1, 0)]

/-- sendNavigationChoiceCards (TurnManager.ts lines 313-357): shuffle the four
cardinal directions and offer the first two as buttons.  The random shuffle is
modelled by passing the shuffled list as an argument. -/
def offeredDirections (shuffled : List (Int × Int)) : List (Int × Int) :=
  shuffled.take 2

/-- The nav_choice_captain_ branch of handleAction (TurnManager.ts lines
532-564), state part: reject when already locked, reject a non-captain,
otherwise record the choice and set the lock.  (Forwarding to the navigator
once both proposers are in is sendNavigatorFinalChoice, navigatorOptions
below.) -/
def TurnManager.handleNavChoiceCaptain (tm : TurnManager) (userId : String) (mv : Int × Int) :
    TurnManager :=
  if tm.captainChoiceLocked then tm
  else if !(some userId == tm.game.captain) then tm
  else { tm with captainNavigationChoice := some mv, captainChoiceLocked := true }

/-- The nav_choice_lieutenant_ branch of handleAction (TurnManager.ts lines
565-597), state part. -/
def TurnManager.handleNavChoiceLieutenant (tm : TurnManager) (userId : String) (mv : Int × Int) :
    TurnManager :=
  if tm.lieutenantChoiceLocked then tm
  else if !(some userId == tm.game.lieutenant) then tm
  else { tm with lieutenantNavigationChoice := some mv, lieutenantChoiceLocked := true }

/-- sendNavigatorFinalChoice (TurnManager.ts lines 359-416): the two buttons
offered to the navigator carry exactly the captain's and the lieutenant's
recorded movements; no buttons are produced while either is missing. -/
def TurnManager.navigatorOptions (tm : TurnManager) : Option (List (Int × Int)) :=
  match tm.captainNavigationChoice, tm.lieutenantNavigationChoice with
  | some c, some l => some [c, l]
  | _, _ => none

/-- The navigate_final_ branch of handleAction (TurnManager.ts lines 598-630),
state part: reject when already locked, reject a non-navigator, otherwise set
the lock, move the ship by the chosen movement and advance to VOTING. -/
def TurnManager.handleNavigateFinal (tm : TurnManager) (userId : String) (mv : Int × Int) :
    TurnManager :=
  if tm.navigatorChoiceLocked then tm
  else if !(some userId == tm.game.navigator) then tm
  else
    { tm with
      navigatorChoiceLocked := true,
      game := { tm.game.moveShip mv.1 mv.2 with currentPhase := .VOTING } }

/-- A controller over gameC1 in the NAVIGATION phase with both proposals in:
the captain proposed North and the lieutenant East. -/
def tmC4 : TurnManager :=
  { game := { gameC1 with currentPhase := .NAVIGATION },
    mutinyVotes := [], mutinyEligibleVoters := ["b", "c", "d"],
    selectedLieutenant := none, selectedNavigator := none,
    captainNavigationChoice := some (0, 1), lieutenantNavigationChoice := some (1, 0),
    captainChoiceLocked := true, lieutenantChoiceLocked := true,
    navigatorChoiceLocked := false, lastMutinySucceeded := false }

/-- A controller over gameC1 whose three navigation roles are all locked. -/
def tmC5 : TurnManager :=
  { tmC4 with navigatorChoiceLocked := true }

/-- C4: once both proposers have locked in their vectors, the buttons offered
to the navigator are exactly those two vectors — never an arbitrary third
option — and committing an offered one moves the ship by it componentwise and
advances the phase to VOTING. -/
theorem navigatorCommit_spec (tm : TurnManager) (c l : Int × Int) (u : String) (mv : Int × Int)
    (hc : tm.captainNavigationChoice = some c)
    (hl : tm.lieutenantNavigationChoice = some l)
    (hm : mv ∈ offeredDirections [c, l] ∨ mv ∈ [c, l])
    (hlock : tm.navigatorChoiceLocked = false)
    (hu : tm.game.navigator = some u) :
    tm.navigatorOptions = some [c, l] ∧
    (mv = c ∨ mv = l) ∧
    (tm.handleNavigateFinal u mv).game.shipPosition =
      (tm.game.shipPosition.1 + mv.1, tm.game.shipPosition.2 + mv.2) ∧
    (tm.handleNavigateFinal u mv).game.currentPhase = .VOTING := by
  have hmv : mv = c ∨ mv = l := by
    rcases hm with hm | hm <;> simpa [offeredDirections] using hm
  refine ⟨by simp [TurnManager.navigatorOptions, hc, hl], hmv, ?_, ?_⟩ <;>
    simp [TurnManager.handleNavigateFinal, hlock, hu, GameState.moveShip]

/-- Witness for C4: with North and East proposed, the navigator commits East
and the ship moves from the origin to (1, 0), phase VOTING. -/
theorem navigatorCommit_spec_witness :
    tmC4.navigatorOptions = some [(0, 1), (1, 0)] ∧
    (((1 : Int), (0 : Int)) = ((0 : Int), (1 : Int)) ∨ ((1 : Int), (0 : Int)) = ((1 : Int), (0 : Int))) ∧
    (tmC4.handleNavigateFinal "c" (1, 0)).game.shipPosition = ((0 : Int) + 1, (0 : Int) + 0) ∧
    (tmC4.handleNavigateFinal "c" (1, 0)).game.currentPhase = GamePhase.VOTING :=
  navigatorCommit_spec tmC4 (0, 1) (1, 0) "c" (1, 0) (by decide) (by decide)
    (Or.inl (by decide)) (by decide) (by decide)

/-- C5: each proposer is offered exactly two distinct vectors out of the four
cardinal unit vectors, and for each of the three roles the first submission
locks the role: a submission against an already-locked role returns the state
entirely unchanged (recorded choice, locks, ship position and phase included),
while a first submission by the right actor records the choice and sets that
role's lock. -/
theorem navigationLock_spec (tm : TurnManager) (shuffled : List (Int × Int)) (u : String)
    (mv : Int × Int) (hp : shuffled.Perm allDirections) :
    ((offeredDirections shuffled).length = 2 ∧
      (offeredDirections shuffled).Nodup ∧
      ∀ d ∈ offeredDirections shuffled, d ∈ allDirections) ∧
    (tm.captainChoiceLocked = true → tm.handleNavChoiceCaptain u mv = tm) ∧
    (tm.lieutenantChoiceLocked = true → tm.handleNavChoiceLieutenant u mv = tm) ∧
    (tm.navigatorChoiceLocked = true → tm.handleNavigateFinal u mv = tm) ∧
    (tm.captainChoiceLocked = false → tm.game.captain = some u →
      (tm.handleNavChoiceCaptain u mv).captainChoiceLocked = true ∧
      (tm.handleNavChoiceCaptain u mv).captainNavigationChoice = some mv) ∧
    (tm.lieutenantChoiceLocked = false → tm.game.lieutenant = some u →
      (tm.handleNavChoiceLieutenant u mv).lieutenantChoiceLocked = true ∧
      (tm.handleNavChoiceLieutenant u mv).lieutenantNavigationChoice = some mv) := by
  have hlen : shuffled.length = 4 := by
    simpa [allDirections] using hp.length_eq
  have hnd : shuffled.Nodup := (hp.nodup_iff).mpr (by decide)
  refine ⟨⟨?_, ?_, ?_⟩, ?_, ?_, ?_, ?_, ?_⟩
  · simp [offeredDirections, hlen]
  · exact hnd.sublist (List.take_sublist 2 shuffled)
  · intro d hd
    exact hp.mem_iff.mp ((List.take_sublist 2 shuffled).mem hd)
  · intro h; simp [TurnManager.handleNavChoiceCaptain, h]
  · intro h; simp [TurnManager.handleNavChoiceLieutenant, h]
  · intro h; simp [TurnManager.handleNavigateFinal, h]
  · intro h hu
    constructor <;> simp [TurnManager.handleNavChoiceCaptain, h, hu]
  · intro h hu
    constructor <;> simp [TurnManager.handleNavChoiceLieutenant, h, hu]

/-- Witness for C5: a concrete shuffle offers exactly two direction cards, and
the fully locked controller swallows a repeated navigator submission. -/
theorem navigationLock_spec_witness :
    (offeredDirections [(1, 0), (0, -1), (0, 1), (-1, 0)]).length = 2 ∧
    tmC5.handleNavigateFinal "c" (0, 1) = tmC5 :=
  ⟨(navigationLock_spec tmC5 [(1, 0), (0, -1), (0, 1), (-1, 0)] "c" (0, 1) (by decide)).1.1,
   (navigationLock_spec tmC5 [(1, 0), (0, -1), (0, 1), (-1, 0)] "c" (0, 1) (by decide)).2.2.2.1
     (by decide)⟩

/-- Membership in the vote map after Map.set: either an old entry or the new
pair. -/
theorem mem_setVote (id : String) (g : Nat) :
    ∀ (l : List (String × Nat)), ∀ v ∈ setVote l id g, v ∈ l ∨ v = (id, g) := by
  intro l
  induction l with
  | nil => intro v hv; simp [setVote] at hv; exact Or.inr hv
  | cons hd tl ih =>
    intro v hv
    obtain ⟨k, w⟩ := hd
    by_cases hk : (k == id) = true
    · simp only [setVote, hk, if_pos] at hv
      rcases List.mem_cons.mp hv with h | h
      · exact Or.inr h
      · exact Or.inl (List.mem_cons_of_mem _ h)
    · simp only [setVote, hk, if_neg, Bool.false_eq_true, not_false_iff] at hv
      rcases List.mem_cons.mp hv with h | h
      · exact Or.inl (h ▸ List.mem_cons_self _ _)
      · rcases ih v h with h' | h'
        · exact Or.inl (List.mem_cons_of_mem _ h')
        · exact Or.inr h'

/-- C6: at MUTINY entry the eligible voters are exactly the alive players
other than the captain (and the vote map is cleared); a captain submission is
rejected (CaptainCannotVote when the captain is a living player) and records
nothing; a dead or unknown player's submission records nothing; and when every
vote already recorded lies within its voter's current gun count, so does every
vote after a submission, since the modal flow only records integers between 0
and the submitting voter's gun count. -/
theorem mutinyVoting_spec (tm : TurnManager) (u : String) (guns : Nat) :
    (∀ id, id ∈ (tm.mutinyPhase).mutinyEligibleVoters ↔
      ∃ p ∈ tm.game.players, p.userId = id ∧ p.isAlive = true ∧ tm.game.captain ≠ some id) ∧
    (tm.mutinyPhase).mutinyVotes = [] ∧
    (∀ pu, tm.game.captain = some u → tm.game.getPlayer u = some pu → pu.isAlive = true →
      tm.openMutinyVoteModal u = MutinyModal.captainCannotVote) ∧
    (tm.game.captain = some u → tm.submitMutinyVote u guns = tm) ∧
    (∀ pu, tm.game.getPlayer u = some pu → pu.isAlive = false →
      tm.submitMutinyVote u guns = tm) ∧
    (tm.game.getPlayer u = none → tm.submitMutinyVote u guns = tm) ∧
    ((∀ v ∈ tm.mutinyVotes, ∃ p, tm.game.getPlayer v.1 = some p ∧ v.2 ≤ p.guns) →
      ∀ v ∈ (tm.submitMutinyVote u guns).mutinyVotes,
        ∃ p, tm.game.getPlayer v.1 = some p ∧ v.2 ≤ p.guns) := by
  refine ⟨?_, rfl, ?_, ?_, ?_, ?_, ?_⟩
  · intro id
    simp only [TurnManager.mutinyPhase, GameState.getAlivePlayers, List.mem_map,
      List.mem_filter, Bool.not_eq_eq_eq_not, Bool.not_true, beq_eq_false_iff_ne,
      ne_eq, Bool.and_eq_true]
    constructor
    · rintro ⟨p, ⟨⟨hp, hal⟩, hne⟩, rfl⟩
      exact ⟨p, hp, rfl, hal, fun hc => hne hc.symm⟩
    · rintro ⟨p, hp, rfl, hal, hne⟩
      exact ⟨p, ⟨⟨hp, hal⟩, fun hc => hne hc.symm⟩, rfl⟩
  · intro pu hc hp hal
    simp [TurnManager.openMutinyVoteModal, hp, hal, hc]
  · intro hc
    unfold TurnManager.submitMutinyVote TurnManager.openMutinyVoteModal
    rcases hp : tm.game.getPlayer u with - | p
    · rfl
    · rcases hal : p.isAlive with - | -
      · simp [hal]
      · simp [hal, hc]
  · intro pu hp hal
    unfold TurnManager.submitMutinyVote TurnManager.openMutinyVoteModal
    simp [hp, hal]
  · intro hp
    unfold TurnManager.submitMutinyVote TurnManager.openMutinyVoteModal
    simp [hp]
  · intro hinv v hv
    unfold TurnManager.submitMutinyVote at hv
    cases heq : tm.openMutinyVoteModal u with
    | noModal => rw [heq] at hv; exact hinv v hv
    | captainCannotVote => rw [heq] at hv; exact hinv v hv
    | modal lo hi =>
      rw [heq] at hv
      replace hv :
          v ∈ (if lo ≤ guns ∧ guns ≤ hi then tm.handleViewSubmission u guns
               else tm).mutinyVotes := hv
      by_cases hrange : lo ≤ guns ∧ guns ≤ hi
      · rw [if_pos hrange] at hv
        rcases mem_setVote u guns tm.mutinyVotes v hv with h | h
        · exact hinv v h
        · subst h
          unfold TurnManager.openMutinyVoteModal at heq
          rcases hp : tm.game.getPlayer u with - | p
          · rw [hp] at heq; cases heq
          · rw [hp] at heq
            replace heq :
                (if (!p.isAlive) = true then MutinyModal.noModal
                 else if (some u == tm.game.captain) = true then MutinyModal.captainCannotVote
                 else MutinyModal.modal 0 p.guns) = MutinyModal.modal lo hi := heq
            by_cases hal : (!p.isAlive) = true
            · rw [if_pos hal] at heq; cases heq
            · rw [if_neg hal] at heq
              by_cases hcap : (some u == tm.game.captain) = true
              · rw [if_pos hcap] at heq; cases heq
              · rw [if_neg hcap] at heq
                injection heq with h1 h2
                exact ⟨p, rfl, by rw [h2]; exact hrange.2⟩
      · rw [if_neg hrange] at hv
        exact hinv v hv

/-- Witness for C6: in the concrete controller the captain's submission leaves
the state untouched. -/
theorem mutinyVoting_spec_witness :
    tmC1.submitMutinyVote "a" 2 = tmC1 :=
  (mutinyVoting_spec tmC1 "a" 2).2.2.2.1 (by decide)

/-- JavaScript truthiness of a nullable string field. -/
def jsTruthy : Option String → Bool
  | none => false
  | some s => !(s == "")

/-- startTurn (TurnManager.ts lines 45-56): advance the phase; when the turn
just ended (VOTING) and a navigation team is already set, skip
NAVIGATION_SELECTION and enter MUTINY directly. -/
def TurnManager.startTurn (tm : TurnManager) : Option TurnManager :=
  let wasVotingPhase := tm.game.currentPhase == .VOTING
  match tm.game.nextPhase with
  | none => none
  | some g1 =>
    if wasVotingPhase && jsTruthy g1.lieutenant && jsTruthy g1.navigator
        && (g1.currentPhase == .NAVIGATION_SELECTION) then
      some { tm with game := { g1 with currentPhase := .MUTINY } }
    else
      some { tm with game := g1 }

/-- rotateCaptain succeeds whenever someone is alive, changing only the
captain field. -/
theorem rotateCaptain_some (g : GameState) (h : g.getAlivePlayers ≠ []) :
    ∃ c', g.rotateCaptain = some { g with captain := some c' } := by
  have hlen : ¬g.getAlivePlayers.length = 0 := by
    simpa [List.length_eq_zero] using h
  unfold GameState.rotateCaptain
  simp only [dif_neg hlen]
  exact ⟨_, rfl⟩

/-- nextPhase out of VOTING starts a new turn: increment the counter, reset the
phase to NAVIGATION_SELECTION and rotate the captain. -/
theorem nextPhase_of_voting (g : GameState) (hv : g.currentPhase = .VOTING)
    (ha : g.getAlivePlayers ≠ []) :
    ∃ c', g.nextPhase =
      some { g with currentTurn := g.currentTurn + 1,
                    currentPhase := .NAVIGATION_SELECTION,
                    captain := some c' } := by
  have hidx : phaseOrder.findIdx? (fun p => p == GamePhase.VOTING) = some 3 := by decide
  have ha' : GameState.getAlivePlayers
      { g with currentTurn := g.currentTurn + 1,
               currentPhase := GamePhase.NAVIGATION_SELECTION } ≠ [] := ha
  obtain ⟨c', hc'⟩ := rotateCaptain_some _ ha'
  refine ⟨c', ?_⟩
  unfold GameState.nextPhase
  rw [hv, hidx]
  simp only [phaseOrder, List.length_cons, List.length_nil]
  norm_num
  exact hc'

/-- C9: invoked in VOTING with both team fields set (non-null, non-empty ids),
startTurn lands in MUTINY — NAVIGATION_SELECTION is skipped — with the
lieutenant and navigator unchanged and the turn counter incremented; with
either field null it lands in NAVIGATION_SELECTION with the turn counter
incremented. -/
theorem startTurn_spec (tm : TurnManager)
    (hv : tm.game.currentPhase = .VOTING)
    (ha : tm.game.getAlivePlayers ≠ []) :
    (∀ l nv, tm.game.lieutenant = some l → l ≠ "" →
      tm.game.navigator = some nv → nv ≠ "" →
      tm.startTurn.map
          (fun t => (t.game.currentPhase, t.game.lieutenant, t.game.navigator,
            t.game.currentTurn)) =
        some (GamePhase.MUTINY, some l, some nv, tm.game.currentTurn + 1)) ∧
    ((tm.game.lieutenant = none ∨ tm.game.navigator = none) →
      tm.startTurn.map (fun t => (t.game.currentPhase, t.game.currentTurn)) =
        some (GamePhase.NAVIGATION_SELECTION, tm.game.currentTurn + 1)) := by
  obtain ⟨c', hnp⟩ := nextPhase_of_voting tm.game hv ha
  constructor
  · intro l nv hl hle hnv hnve
    unfold TurnManager.startTurn
    rw [hnp]
    simp [hv, jsTruthy, hl, hnv, hle, hnve]
  · intro hnull
    unfold TurnManager.startTurn
    rw [hnp]
    rcases hnull with hnull | hnull <;> simp [jsTruthy, hnull]

/-- Witness for C9: the concrete VOTING-phase controller with team b, c set
skips straight to MUTINY on turn 2. -/
theorem startTurn_spec_witness :
    (TurnManager.startTurn { tmC1 with game := { gameC1 with currentPhase := .VOTING } }).map
        (fun t => (t.game.currentPhase, t.game.lieutenant, t.game.navigator,
          t.game.currentTurn)) =
      some (GamePhase.MUTINY, some "b", some "c", 2) :=
  (startTurn_spec { tmC1 with game := { gameC1 with currentPhase := .VOTING } }
    (by decide) (by decide)).1 "b" "c" (by decide) (by decide) (by decide) (by decide)

/-- C10: rotateCaptain is defined only when someone is alive — with zero alive
players the source's modulo-by-zero index computation crashes, modelled as
none — so eliminating the last living player when that player is the captain
errors rather than leaving a valid captain; with at least one other living
player the error branch is unreachable. -/
theorem rotateCaptain_safety (g : GameState) (u : String) :
    (g.getAlivePlayers = [] → g.rotateCaptain = none) ∧
    (g.getAlivePlayers ≠ [] → g.rotateCaptain.isSome = true) ∧
    (∀ pu, g.getPlayer u = some pu → g.captain = some u →
      (∀ p ∈ g.players, p.isAlive = true → p.userId = u) →
      g.eliminatePlayer u = none) ∧
    (∀ pu, g.getPlayer u = some pu → g.captain = some u →
      (∃ p ∈ g.players, p.isAlive = true ∧ p.userId ≠ u) →
      (g.eliminatePlayer u).isSome = true) := by
  refine ⟨?_, ?_, ?_, ?_⟩
  · intro h
    unfold GameState.rotateCaptain
    simp [h]
  · intro h
    obtain ⟨c', hc'⟩ := rotateCaptain_some g h
    simp [hc']
  · intro pu hpu hc hall
    unfold GameState.eliminatePlayer
    rw [hpu]
    have hcond :
        (({ g with players := markDeadList g.players u } : GameState).captain == some u) = true := by
      simp [hc]
    rw [if_pos hcond]
    have hdead : List.filter (fun p => p.isAlive) (markDeadList g.players u) = [] := by
      rw [List.filter_eq_nil_iff]
      intro x hx
      simp only [markDeadList, List.mem_map] at hx
      obtain ⟨p, hp, rfl⟩ := hx
      by_cases hb : (p.userId == u) = true
      · simp [hb]
      · have hpd : p.isAlive = false := by
          rcases hal : p.isAlive with - | -
          · rfl
          · exact absurd (by simpa using hall p hp hal) hb
        simp [hb, hpd]
    unfold GameState.rotateCaptain
    simp [GameState.getAlivePlayers, hdead]
  · intro pu hpu hc hex
    unfold GameState.eliminatePlayer
    rw [hpu]
    have hcond :
        (({ g with players := markDeadList g.players u } : GameState).captain == some u) = true := by
      simp [hc]
    rw [if_pos hcond]
    obtain ⟨p, hp, hal, hne⟩ := hex
    have hpmem : p ∈ markDeadList g.players u := by
      have hkeep : (if (p.userId == u) = true then { p with isAlive := false } else p) = p := by
        simp [hne]
      exact hkeep ▸ List.mem_map_of_mem _ hp
    have halive : GameState.getAlivePlayers
        ({ g with players := markDeadList g.players u } : GameState) ≠ [] := by
      have hmem : p ∈ GameState.getAlivePlayers
          ({ g with players := markDeadList g.players u } : GameState) :=
        List.mem_filter.mpr ⟨hpmem, by simp [hal]⟩
      exact List.ne_nil_of_mem hmem
    obtain ⟨c', hc'⟩ := rotateCaptain_some _ halive
    rw [hc']
    rfl

/-- Witness for C10: in the concrete four-player session, eliminating captain
a succeeds because b, c, d are still alive. -/
theorem rotateCaptain_safety_witness :
    (gameC1.eliminatePlayer "a").isSome = true :=
  (rotateCaptain_safety gameC1 "a").2.2.2 (mkPlayer "a" true 3) (by decide) (by decide)
    ⟨mkPlayer "b" true 3, by decide, by decide, by decide⟩

/-- The seed of a Nat max-fold bounds the result from below. -/
theorem init_le_foldl_max (l : List Nat) (a : Nat) : a ≤ l.foldl Nat.max a := by
  induction l generalizing a with
  | nil => exact Nat.le_refl a
  | cons b l ih => exact Nat.le_trans (Nat.le_max_left a b) (ih (Nat.max a b))

/-- Every list element bounds a Nat max-fold from below. -/
theorem le_foldl_max (l : List Nat) (a : Nat) : ∀ x ∈ l, x ≤ l.foldl Nat.max a := by
  induction l generalizing a with
  | nil => intro x hx; cases hx
  | cons b l ih =>
    intro x hx
    rcases List.mem_cons.mp hx with rfl | hx
    · exact Nat.le_trans (Nat.le_max_right a x) (init_le_foldl_max l (Nat.max a x))
    · exact ih (Nat.max a b) x hx

/-- A Nat max-fold returns its seed or one of the list elements. -/
theorem foldl_max_mem (l : List Nat) (a : Nat) :
    l.foldl Nat.max a = a ∨ l.foldl Nat.max a ∈ l := by
  induction l generalizing a with
  | nil => exact Or.inl rfl
  | cons b l ih =>
    rcases ih (Nat.max a b) with h | h
    · rcases Nat.le_total a b with hab | hab
      · refine Or.inr (by
          simp only [List.foldl_cons]
          rw [h]
          have hm : a.max b = b := Nat.max_eq_right hab
          rw [hm]
          exact List.mem_cons_self _ _)
      · refine Or.inl (by
          simp only [List.foldl_cons]
          rw [h]
          exact Nat.max_eq_left hab)
    · exact Or.inr (List.mem_cons_of_mem _ h)

/-- Members of the tied crew are eligible and hold the maximum gun count. -/
theorem mem_tiedCrew (g : GameState) (p : Player) (hp : p ∈ tiedCrew g) :
    p ∈ eligibleCrew g ∧ p.guns = maxEligibleGuns g := by
  obtain ⟨h1, h2⟩ := List.mem_filter.mp hp
  exact ⟨h1, by simpa using h2⟩

/-- Eligible gun counts never exceed the eligible maximum. -/
theorem guns_le_maxEligibleGuns (g : GameState) :
    ∀ q ∈ eligibleCrew g, q.guns ≤ maxEligibleGuns g := by
  intro q hq
  exact le_foldl_max _ 0 q.guns (List.mem_map_of_mem _ hq)

/-- With a non-empty eligible crew the maximum gun count is attained. -/
theorem maxEligibleGuns_attained (g : GameState) (hne : eligibleCrew g ≠ []) :
    ∃ p ∈ eligibleCrew g, p.guns = maxEligibleGuns g := by
  rcases foldl_max_mem ((eligibleCrew g).map (fun p => p.guns)) 0 with h0 | hmem
  · obtain ⟨e, rest, he⟩ := List.exists_cons_of_ne_nil hne
    have hmem : e ∈ eligibleCrew g := by rw [he]; exact List.mem_cons_self _ _
    have hle : e.guns ≤ maxEligibleGuns g := guns_le_maxEligibleGuns g e hmem
    have h0' : maxEligibleGuns g = 0 := h0
    exact ⟨e, hmem, by omega⟩
  · obtain ⟨q, hq, hqg⟩ := List.mem_map.mp hmem
    exact ⟨q, hq, hqg⟩

/-- With a non-empty eligible crew the tied crew is non-empty. -/
theorem tiedCrew_ne_nil (g : GameState) (hne : eligibleCrew g ≠ []) :
    tiedCrew g ≠ [] := by
  obtain ⟨p, hp, hg⟩ := maxEligibleGuns_attained g hne
  exact List.ne_nil_of_mem (List.mem_filter.mpr ⟨hp, by simp [hg]⟩)

/-- electCaptainByGuns elects some member of the tied crew. -/
theorem electCaptainByGuns_mem (g : GameState) (t : Nat) (hne : eligibleCrew g ≠ []) :
    ∃ p ∈ tiedCrew g, (g.electCaptainByGuns t).captain = some p.userId := by
  have hlen : ¬(tiedCrew g).length = 0 := by
    simpa [List.length_eq_zero] using tiedCrew_ne_nil g hne
  unfold GameState.electCaptainByGuns
  simp only [dif_neg hlen]
  exact ⟨_, List.get_mem _ _ _, rfl⟩

/-- Every member of the tied crew is elected by some tie-break value. -/
theorem electCaptainByGuns_reaches (g : GameState) (q : Player) (hq : q ∈ tiedCrew g) :
    ∃ t, (g.electCaptainByGuns t).captain = some q.userId := by
  obtain ⟨i, hi⟩ := List.get_of_mem hq
  have hlen : ¬(tiedCrew g).length = 0 := by
    simpa [List.length_eq_zero] using List.ne_nil_of_mem hq
  refine ⟨i.1, ?_⟩
  unfold GameState.electCaptainByGuns
  simp only [dif_neg hlen]
  have hmod : i.1 % (tiedCrew g).length = i.1 := Nat.mod_eq_of_lt i.2
  congr 1
  rw [show (⟨i.1 % (tiedCrew g).length, _⟩ : Fin (tiedCrew g).length) = i from
    Fin.ext hmod, hi]

/-- C2: on success, resolveMutiny deposes the captain and elects via
electCaptainByGuns an alive non-captain player holding the maximum gun count
among the eligible crew — every tied candidate being reachable under the
random tie-break — and sets the phase to NAVIGATION_SELECTION; on failure the
captain is unchanged and the phase becomes NAVIGATION. -/
theorem resolveMutiny_outcome (tm : TurnManager) (t : Nat)
    (hne : eligibleCrew tm.game ≠ []) :
    (tm.mutinySucceeded = true →
      (tm.resolveMutiny t).game.currentPhase = GamePhase.NAVIGATION_SELECTION ∧
      ∃ p ∈ eligibleCrew tm.game,
        (tm.resolveMutiny t).game.captain = some p.userId ∧
        some p.userId ≠ tm.game.captain ∧
        ∀ q ∈ eligibleCrew tm.game, q.guns ≤ p.guns) ∧
    (tm.mutinySucceeded = true →
      ∀ q ∈ eligibleCrew tm.game, (∀ r ∈ eligibleCrew tm.game, r.guns ≤ q.guns) →
        ∃ t', (tm.resolveMutiny t').game.captain = some q.userId) ∧
    (tm.mutinySucceeded = false →
      (tm.resolveMutiny t).game.captain = tm.game.captain ∧
      (tm.resolveMutiny t).game.currentPhase = GamePhase.NAVIGATION) := by
  refine ⟨?_, ?_, ?_⟩
  · intro hs
    unfold TurnManager.resolveMutiny
    rw [if_pos hs]
    refine ⟨rfl, ?_⟩
    obtain ⟨p, hp, hcap⟩ := electCaptainByGuns_mem tm.game t hne
    obtain ⟨helig, hmax⟩ := mem_tiedCrew tm.game p hp
    have hnc : some p.userId ≠ tm.game.captain := by
      have := (List.mem_filter.mp helig).2
      simpa using this
    refine ⟨p, helig, by simpa using hcap, hnc, ?_⟩
    intro q hq
    rw [hmax]
    exact guns_le_maxEligibleGuns tm.game q hq
  · intro hs q hq hqmax
    have hqtied : q ∈ tiedCrew tm.game := by
      obtain ⟨p, hp, hpg⟩ := maxEligibleGuns_attained tm.game hne
      have h1 : q.guns ≤ maxEligibleGuns tm.game := guns_le_maxEligibleGuns tm.game q hq
      have h2 : maxEligibleGuns tm.game ≤ q.guns := hpg ▸ hqmax p hp
      exact List.mem_filter.mpr ⟨hq, by simp [Nat.le_antisymm h1 h2]⟩
    obtain ⟨t', ht'⟩ := electCaptainByGuns_reaches tm.game q hqtied
    refine ⟨t', ?_⟩
    unfold TurnManager.resolveMutiny
    rw [if_pos hs]
    simpa using ht'
  · intro hf
    unfold TurnManager.resolveMutiny
    rw [hf]
    simp

/-- Witness for C2: in the concrete controller the mutiny succeeds, so the
phase loops back to NAVIGATION_SELECTION. -/
theorem resolveMutiny_outcome_witness :
    (tmC1.resolveMutiny 0).game.currentPhase = GamePhase.NAVIGATION_SELECTION :=
  ((resolveMutiny_outcome tmC1 0 (by decide)).1 (by decide)).1

/-- The claim's reading of captain rotation: the first alive player strictly
after the given player's position in join order, wrapping around (the player
itself coming last in the scan). -/
def nextAliveAfter (players : List Player) (id : String) : Option String :=
  (players.findIdx? (fun p => p.userId == id)).bind (fun i =>
    ((players.drop (i + 1) ++ players.take (i + 1)).find? (fun p => p.isAlive)).map
      (fun p => p.userId))

/-- Equality tests on optional user ids commute. -/
theorem beq_some_userId_comm (c : String) (x : Player) :
    (some c == some x.userId) = (x.userId == c) := by
  by_cases h : x.userId = c
  · simp [h]
  · have h' : ¬(c = x.userId) := fun hh => h hh.symm
    simp [h, h']

/-- find? is the head of the filtered list. -/
theorem find?_eq_filter_head? (p : α → Bool) : ∀ l : List α, l.find? p = (l.filter p).head? := by
  intro l
  induction l with
  | nil => rfl
  | cons a t ih =>
    rw [List.filter_cons]
    by_cases h : p a
    · simp [h]
    · rw [if_neg h, List.find?_cons_of_neg _ h, ih]

/-- A successful find? splits the list at the first hit, whose index findIdx?
reports. -/
theorem find?_decomp (p : α → Bool) :
    ∀ (l : List α) (a : α), l.find? p = some a →
      ∃ l₁ l₂, l = l₁ ++ a :: l₂ ∧ (∀ x ∈ l₁, p x = false) ∧ p a = true ∧
        l.findIdx? p = some l₁.length := by
  intro l
  induction l with
  | nil => intro a h; cases h
  | cons b t ih =>
    intro a h
    by_cases hb : p b
    · rw [List.find?_cons_of_pos _ hb] at h
      injection h with h
      subst h
      exact ⟨[], t, rfl, by simp, hb, by simp [hb]⟩
    · rw [List.find?_cons_of_neg _ hb] at h
      obtain ⟨l₁, l₂, rfl, hfalse, hpa, hidx⟩ := ih a h
      refine ⟨b :: l₁, l₂, rfl, ?_, hpa, ?_⟩
      · intro x hx
        rcases List.mem_cons.mp hx with rfl | hx
        · simpa using hb
        · exact hfalse x hx
      · rw [List.findIdx?_cons, if_neg hb, List.findIdx?_succ, hidx]
        rfl

/-- findIdx? over a list whose prefix fails the test and whose next element
passes it reports the prefix length. -/
theorem findIdx?_append_cons (q : α → Bool) :
    ∀ (B : List α) (a : α) (C : List α), (∀ x ∈ B, q x = false) → q a = true →
      (B ++ a :: C).findIdx? q = some B.length := by
  intro B
  induction B with
  | nil => intro a C h hq; simp [List.findIdx?_cons, hq]
  | cons b B ih =>
    intro a C h hq
    have hb : q b = false := h b (List.mem_cons_self _ _)
    rw [List.cons_append, List.findIdx?_cons, if_neg (by simp [hb]), List.findIdx?_succ,
      ih a C (fun x hx => h x (List.mem_cons_of_mem _ hx)) hq]
    rfl

/-- The (i+1) mod length element of a list split as B ++ a :: A2, where i is
the position of a: the head of A2 when non-empty, else wrapping to the head of
B, else a itself. -/
theorem getElem?_rotation_succ {α : Type} (B A2 : List α) (a : α) :
    (B ++ a :: A2)[(B.length + 1) % (B ++ a :: A2).length]? =
      (A2.head?).or ((B.head?).or (some a)) := by
  cases A2 with
  | nil =>
    have hlen : (B ++ [a]).length = B.length + 1 := by simp
    have hmod : (B.length + 1) % (B ++ [a]).length = 0 := by rw [hlen, Nat.mod_self]
    rw [hmod, ← List.head?_eq_getElem?, List.head?_append]
    simp
  | cons d A2' =>
    have hlt2 : B.length + 1 < (B ++ a :: d :: A2').length := by
      simp only [List.length_append, List.length_cons]
      omega
    rw [Nat.mod_eq_of_lt hlt2]
    rw [List.getElem?_append_right (by omega)]
    have h1 : B.length + 1 - B.length = 1 := by omega
    rw [h1]
    simp

/-- Survivors of marking a player dead never carry that player's id. -/
theorem mem_markDead_alive_ne (players : List Player) (u : String) (x : Player)
    (hx : x ∈ (markDeadList players u).filter (fun p => p.isAlive)) :
    (x.userId == u) = false := by
  obtain ⟨hm, halx⟩ := List.mem_filter.mp hx
  simp only [markDeadList, List.mem_map] at hm
  obtain ⟨p, hp, rfl⟩ := hm
  by_cases hb : (p.userId == u) = true
  · rw [if_pos hb] at halx
    exact absurd halx (by simp)
  · rw [if_neg hb]
    simpa using hb

/-- C3 amended: rotateCaptain with a living captain moves command to the next
alive player after the captain in join order, wrapping; eliminatePlayer sets
the target's liveness to false (touching no other entry, as markDeadList
shows) and, when the target was captain, reassigns the captaincy to the FIRST
alive player in join order — not the next one after the target, because the
dead captain no longer appears in the alive list and the next-index
computation restarts at index 0. -/
theorem rotateCaptain_eliminate_spec (g : GameState) :
    (∀ c pc, g.captain = some c → g.getPlayer c = some pc → pc.isAlive = true →
      ∃ g', g.rotateCaptain = some g' ∧
        g'.players = g.players ∧
        g'.captain = nextAliveAfter g.players c) ∧
    (∀ u, g.getPlayer u ≠ none → g.captain ≠ some u →
      g.eliminatePlayer u = some { g with players := markDeadList g.players u }) ∧
    (∀ u, g.getPlayer u ≠ none → g.captain = some u →
      (markDeadList g.players u).any (fun p => p.isAlive) = true →
      ∃ g', g.eliminatePlayer u = some g' ∧
        g'.players = markDeadList g.players u ∧
        g'.captain = ((markDeadList g.players u).find? (fun p => p.isAlive)).map
          (fun p => p.userId)) := by
  refine ⟨?_, ?_, ?_⟩
  · intro c pc hc hgp hal
    unfold GameState.getPlayer at hgp
    obtain ⟨l₁, l₂, hsplit, hfalse, hpc, hidx⟩ :=
      find?_decomp (fun p => p.userId == c) g.players pc hgp
    have hA : g.players.filter (fun p => p.isAlive) =
        l₁.filter (fun p => p.isAlive) ++ pc :: l₂.filter (fun p => p.isAlive) := by
      rw [hsplit, List.filter_append, List.filter_cons]
      simp [hal]
    have hAne : ¬(g.players.filter (fun p => p.isAlive)).length = 0 := by
      rw [hA]
      simp
    have hq : (g.players.filter (fun p => p.isAlive)).findIdx?
        (fun p => g.captain == some p.userId) = some (l₁.filter (fun p => p.isAlive)).length := by
      rw [hc]
      simp only [beq_some_userId_comm]
      rw [hA]
      exact findIdx?_append_cons _ _ pc _
        (fun x hxB => hfalse x (List.mem_filter.mp hxB).1) hpc
    have hcapv : (g.players.filter (fun p => p.isAlive))[((l₁.filter
        (fun p => p.isAlive)).length + 1) % (g.players.filter (fun p => p.isAlive)).length]? =
        ((l₂.filter (fun p => p.isAlive)).head?).or
          (((l₁.filter (fun p => p.isAlive)).head?).or (some pc)) := by
      rw [hA]
      exact getElem?_rotation_succ _ _ pc
    have hnext : nextAliveAfter g.players c =
        (((l₂.filter (fun p => p.isAlive)).head?).or
          (((l₁.filter (fun p => p.isAlive)).head?).or (some pc))).map (fun p => p.userId) := by
      unfold nextAliveAfter
      rw [hidx]
      show ((g.players.drop (l₁.length + 1) ++ g.players.take (l₁.length + 1)).find?
          (fun p => p.isAlive)).map (fun p => p.userId) = _
      have hdrop : g.players.drop (l₁.length + 1) = l₂ := by
        rw [hsplit, show l₁ ++ pc :: l₂ = (l₁ ++ [pc]) ++ l₂ by simp]
        exact List.drop_left' (by simp)
      have htake : g.players.take (l₁.length + 1) = l₁ ++ [pc] := by
        rw [hsplit, show l₁ ++ pc :: l₂ = (l₁ ++ [pc]) ++ l₂ by simp]
        exact List.take_left' (by simp)
      rw [hdrop, htake, List.find?_append, List.find?_append,
        List.find?_cons_of_pos _ (by simpa using hal)]
      rw [find?_eq_filter_head? _ l₂, find?_eq_filter_head? _ l₁]
    unfold GameState.rotateCaptain GameState.getAlivePlayers
    simp only [hq, dif_neg hAne]
    refine ⟨_, rfl, rfl, ?_⟩
    rw [hnext]
    rw [show ∀ (i : Fin (g.players.filter (fun p => p.isAlive)).length),
        some ((g.players.filter (fun p => p.isAlive)).get i).userId =
        ((g.players.filter (fun p => p.isAlive))[i.1]?).map (fun p => p.userId) from
      fun i => by rw [List.get_eq_getElem, List.getElem?_eq_getElem i.2]; rfl]
    rw [hcapv]
  · intro u hu hc
    unfold GameState.eliminatePlayer
    rcases hpu : g.getPlayer u with - | pu
    · exact absurd hpu hu
    · have hcond : (({ g with players := markDeadList g.players u } : GameState).captain
          == some u) = false := by
        simpa using hc
      rw [if_neg (by simp [hcond])]
  · intro u hu hc hany
    unfold GameState.eliminatePlayer
    rcases hpu : g.getPlayer u with - | pu
    · exact absurd hpu hu
    · have hcond : (({ g with players := markDeadList g.players u } : GameState).captain
          == some u) = true := by
        simp [hc]
      rw [if_pos hcond]
      have hAne : ¬((markDeadList g.players u).filter (fun p => p.isAlive)).length = 0 := by
        obtain ⟨x, hx, halx⟩ := List.any_eq_true.mp hany
        have : x ∈ (markDeadList g.players u).filter (fun p => p.isAlive) :=
          List.mem_filter.mpr ⟨hx, halx⟩
        simpa [List.length_eq_zero] using List.ne_nil_of_mem this
      have hnone : ((markDeadList g.players u).filter (fun p => p.isAlive)).findIdx?
          (fun p => (({ g with players := markDeadList g.players u } : GameState).captain
            == some p.userId)) = none := by
        rw [List.findIdx?_eq_none_iff]
        intro x hx
        have hne := mem_markDead_alive_ne g.players u x hx
        simp only [hc]
        rw [beq_some_userId_comm u x]
        exact hne
      unfold GameState.rotateCaptain GameState.getAlivePlayers
      simp only [hnone, dif_neg hAne]
      refine ⟨_, rfl, rfl, ?_⟩
      rw [find?_eq_filter_head?]
      rw [show ∀ (i : Fin ((markDeadList g.players u).filter (fun p => p.isAlive)).length),
          some (((markDeadList g.players u).filter (fun p => p.isAlive)).get i).userId =
          (((markDeadList g.players u).filter (fun p => p.isAlive))[i.1]?).map
            (fun p => p.userId) from
        fun i => by rw [List.get_eq_getElem, List.getElem?_eq_getElem i.2]; rfl]
      have hhead : ((markDeadList g.players u).filter
            (fun p => p.isAlive))[0 % ((markDeadList g.players u).filter
            (fun p => p.isAlive)).length]? =
          ((markDeadList g.players u).filter (fun p => p.isAlive)).head? := by
        rw [Nat.zero_mod, ← List.head?_eq_getElem?]
      show (((markDeadList g.players u).filter
          (fun p => p.isAlive))[0 % ((markDeadList g.players u).filter
          (fun p => p.isAlive)).length]?).map (fun p => p.userId) = _
      rw [hhead]

/-- gameC3: three players a, b, c in join order, all alive, captain b. -/
def gameC3 : GameState :=
  { channelId := "ch", hostId := "a",
    players := [mkPlayer "a" true 3, mkPlayer "b" true 3, mkPlayer "c" true 3],
    status := .IN_PROGRESS, currentTurn := 1, currentPhase := .NAVIGATION,
    captain := some "b", lieutenant := none, navigator := none,
    shipPosition := (0, 0), cultLeader := some "a" }

/-- Counterexample to C3 as stated: eliminating captain b hands command to a,
the first alive player in join order, while the next alive player after b in
join order (wrapping) is c. -/
theorem eliminatePlayer_nextAlive_counterexample :
    (gameC3.eliminatePlayer "b").map (fun g => g.captain) = some (some "a") ∧
    nextAliveAfter (markDeadList gameC3.players "b") "b" = some "c" ∧
    (some (some "a") : Option (Option String)) ≠ some (some "c") := by
  refine ⟨by decide, by decide, by decide⟩

/-- Witness for the amended C3: rotating in gameC3 moves command from the
living captain b to c, the next alive player in join order. -/
theorem rotateCaptain_eliminate_spec_witness :
    (gameC3.rotateCaptain).map (fun g => g.captain) = some (nextAliveAfter gameC3.players "b") := by
  obtain ⟨g', hrot, -, hcap⟩ :=
    (rotateCaptain_eliminate_spec gameC3).1 "b" (mkPlayer "b" true 3) (by decide) (by decide)
      (by decide)
  rw [hrot]
  simpa using hcap

/-- Canonical image of the assignment loops on the shuffled array itself:
position i receives roleAt n i. -/
def assignFrom (n : Nat) : Nat → List Player → List Player
  | _, [] => []
  | i, q :: rest => { q with role := some (roleAt n i) } :: assignFrom n (i + 1) rest

/-- Number of players currently holding the given role. -/
def countRole (players : List Player) (r : PlayerRole) : Nat :=
  players.countP (fun p => p.role == some r)

/-- setRole leaves a list without the target id untouched. -/
theorem setRole_eq_of_absent (id : String) (r : PlayerRole) :
    ∀ l : List Player, (∀ x ∈ l, (x.userId == id) = false) → setRole id r l = l := by
  intro l
  induction l with
  | nil => intro h; rfl
  | cons a t ih =>
    intro h
    have ha : (a.userId == id) = false := h a (List.mem_cons_self _ _)
    show (if (a.userId == id) = true then _ else a) :: setRole id r t = a :: t
    rw [if_neg (by simp [ha]), ih (fun x hx => h x (List.mem_cons_of_mem _ hx))]

/-- The loop state applyAssignments is, as a multiset, the canonical
assignFrom image: processed players stay fixed, pending players are a
permutation of the remaining shuffled suffix. -/
theorem applyAssignments_perm (n : Nat) :
    ∀ (rest : List Player) (i : Nat) (fixed players : List Player),
      (rest.map (fun p => p.userId)).Nodup →
      (∀ p ∈ fixed, ∀ q ∈ rest, (p.userId == q.userId) = false) →
      players.Perm (fixed ++ rest) →
      (applyAssignments n i players rest).Perm (fixed ++ assignFrom n i rest) := by
  intro rest
  induction rest with
  | nil =>
    intro i fixed players hnd hdisj hperm
    simpa [applyAssignments, assignFrom] using hperm
  | cons q rest ih =>
    intro i fixed players hnd hdisj hperm
    have hndq : q.userId ∉ rest.map (fun p => p.userId) := by
      rw [List.map_cons] at hnd
      exact (List.nodup_cons.mp hnd).1
    have hndrest : (rest.map (fun p => p.userId)).Nodup := by
      rw [List.map_cons] at hnd
      exact (List.nodup_cons.mp hnd).2
    have hrestq : ∀ x ∈ rest, (x.userId == q.userId) = false := by
      intro x hx
      have : x.userId ≠ q.userId := fun he => hndq (he ▸ List.mem_map_of_mem _ hx)
      simpa using this
    have hstep : (setRole q.userId (roleAt n i) players).Perm
        ((fixed ++ [{ q with role := some (roleAt n i) }]) ++ rest) := by
      have h1 : (setRole q.userId (roleAt n i) players).Perm
          (setRole q.userId (roleAt n i) (fixed ++ q :: rest)) := hperm.map _
      have h2 : setRole q.userId (roleAt n i) (fixed ++ q :: rest) =
          (fixed ++ [{ q with role := some (roleAt n i) }]) ++ rest := by
        show List.map _ (fixed ++ q :: rest) = _
        rw [List.map_append]
        have hfix : setRole q.userId (roleAt n i) fixed = fixed :=
          setRole_eq_of_absent _ _ fixed
            (fun p hp => hdisj p hp q (List.mem_cons_self _ _))
        have hcons : setRole q.userId (roleAt n i) (q :: rest) =
            { q with role := some (roleAt n i) } :: rest := by
          show (if (q.userId == q.userId) = true then _ else q) :: setRole q.userId _ rest = _
          rw [if_pos (by simp), setRole_eq_of_absent _ _ rest hrestq]
        show setRole q.userId (roleAt n i) fixed ++ setRole q.userId (roleAt n i) (q :: rest) = _
        rw [hfix, hcons]
        simp
      rw [← h2]
      exact h1
    have hdisj' : ∀ p ∈ fixed ++ [{ q with role := some (roleAt n i) }],
        ∀ x ∈ rest, (p.userId == x.userId) = false := by
      intro p hp x hx
      rcases List.mem_append.mp hp with hp | hp
      · exact hdisj p hp x (List.mem_cons_of_mem _ hx)
      · rcases List.mem_singleton.mp hp with rfl
        have := hrestq x hx
        have hne : x.userId ≠ q.userId := by simpa using this
        simpa using fun he => hne he.symm
    have hres := ih (i + 1) (fixed ++ [{ q with role := some (roleAt n i) }])
      (setRole q.userId (roleAt n i) players) hndrest hdisj' hstep
    show (applyAssignments n (i + 1) (setRole q.userId (roleAt n i) players) rest).Perm
      (fixed ++ assignFrom n i (q :: rest))
    have hre : fixed ++ assignFrom n i (q :: rest) =
        (fixed ++ [{ q with role := some (roleAt n i) }]) ++ assignFrom n (i + 1) rest := by
      show fixed ++ ({ q with role := some (roleAt n i) } :: assignFrom n (i + 1) rest) = _
      simp
    rw [hre]
    exact hres

/-- assignFrom keeps the list length. -/
theorem assignFrom_length (n : Nat) :
    ∀ (l : List Player) (i : Nat), (assignFrom n i l).length = l.length := by
  intro l
  induction l with
  | nil => intro i; rfl
  | cons q rest ih =>
    intro i
    show (assignFrom n i (q :: rest)).length = rest.length + 1
    show (assignFrom n (i + 1) rest).length + 1 = rest.length + 1
    rw [ih]

/-- Every assignFrom entry holds a role. -/
theorem assignFrom_role_ne_none (n : Nat) :
    ∀ (l : List Player) (i : Nat), ∀ x ∈ assignFrom n i l, x.role ≠ none := by
  intro l
  induction l with
  | nil => intro i x hx; cases hx
  | cons q rest ih =>
    intro i x hx
    rcases List.mem_cons.mp hx with rfl | hx
    · simp
    · exact ih (i + 1) x hx

/-- The role list laid down by assignFrom. -/
theorem assignFrom_map_role (n : Nat) :
    ∀ (l : List Player) (i : Nat),
      (assignFrom n i l).map (fun p => p.role) =
        (List.range' i l.length).map (fun j => some (roleAt n j)) := by
  intro l
  induction l with
  | nil => intro i; rfl
  | cons q rest ih =>
    intro i
    show some (roleAt n i) :: (assignFrom n (i + 1) rest).map (fun p => p.role) = _
    rw [ih, show (q :: rest).length = rest.length + 1 from rfl, List.range'_succ]
    rfl

/-- The special-role slots of the table never exceed the player count from
five players up. -/
theorem roleCounts_le (n : Nat) (h5 : 5 ≤ n) :
    (roleCounts n).2.1 + (roleCounts n).1 + (roleCounts n).2.2 ≤ n := by
  unfold roleCounts
  split_ifs <;> simp_all
  omega

/-- Slot zero of the shuffled array always receives the cult leader. -/
theorem roleAt_zero (n : Nat) : roleAt n 0 = PlayerRole.CULT_LEADER := by
  unfold roleAt roleCounts
  split_ifs <;> rfl

/-- Role counts after the assignment loops, reduced to counting table slots.
Requires the shuffled ids to be distinct and the shuffle to be a permutation
of the stored players. -/
theorem countRole_applyAssignments (n : Nat) (players shuffled : List Player) (r : PlayerRole)
    (hnd : (shuffled.map (fun p => p.userId)).Nodup)
    (hperm : shuffled.Perm players) :
    countRole (applyAssignments n 0 players shuffled) r =
      (List.range shuffled.length).countP (fun j => roleAt n j == r) := by
  have hperm2 := applyAssignments_perm n shuffled 0 [] players hnd (by simp)
    (by simpa using hperm.symm)
  rw [List.nil_append] at hperm2
  unfold countRole
  rw [hperm2.countP_eq]
  have h1 : (assignFrom n 0 shuffled).countP (fun p => p.role == some r) =
      ((assignFrom n 0 shuffled).map (fun p => p.role)).countP (fun o => o == some r) := by
    rw [List.countP_map]
    rfl
  rw [h1, assignFrom_map_role, List.countP_map, ← List.range_eq_range']
  have h2 : ((fun o => o == some r) ∘ fun j => some (roleAt n j)) =
      (fun j => roleAt n j == r) := by
    funext j
    by_cases h : roleAt n j = r
    · simp [h]
    · simp [h]
  rw [h2]

/-- C8: for 5 to 12 players, assignRoles gives every player exactly one role,
with one cult leader, 2 pirates up to 7 players and 3 from 8, 0 cultists up to
6 players, 1 for 7 and 8, 2 from 9, the rest sailors (counts summing to the
player count), and the cult leader's identity recorded in the session's
cultLeader field. -/
theorem assignRoles_spec (g : GameState) (shuffled : List Player)
    (h5 : 5 ≤ g.players.length) (h12 : g.players.length ≤ 12)
    (hperm : shuffled.Perm g.players)
    (hnd : (shuffled.map (fun p => p.userId)).Nodup) :
    ∃ g', g.assignRoles shuffled = some g' ∧
      g'.players.length = g.players.length ∧
      (∀ p ∈ g'.players, p.role ≠ none) ∧
      countRole g'.players .PIRATE = (if g.players.length ≤ 7 then 2 else 3) ∧
      countRole g'.players .CULT_LEADER = 1 ∧
      countRole g'.players .CULTIST =
        (if g.players.length ≤ 6 then 0 else if g.players.length ≤ 8 then 1 else 2) ∧
      countRole g'.players .PIRATE + countRole g'.players .CULT_LEADER +
          countRole g'.players .CULTIST + countRole g'.players .SAILOR =
        g.players.length ∧
      (∃ p ∈ g'.players, p.role = some .CULT_LEADER ∧ g'.cultLeader = some p.userId) := by
  have hlen : shuffled.length = g.players.length := hperm.length_eq
  have hguard : ¬ shuffled.length <
      (roleCounts g.players.length).2.1 + (roleCounts g.players.length).1 +
        (roleCounts g.players.length).2.2 := by
    rw [hlen]
    exact Nat.not_lt.mpr (roleCounts_le _ h5)
  have hperm2 := applyAssignments_perm g.players.length shuffled 0 [] g.players hnd (by simp)
    (by simpa using hperm.symm)
  rw [List.nil_append] at hperm2
  unfold GameState.assignRoles
  rw [if_neg hguard]
  refine ⟨_, rfl, ?_, ?_, ?_, ?_, ?_, ?_, ?_⟩
  · show (applyAssignments g.players.length 0 g.players shuffled).length = g.players.length
    rw [hperm2.length_eq, assignFrom_length, hlen]
  · show ∀ p ∈ applyAssignments g.players.length 0 g.players shuffled, p.role ≠ none
    intro p hp
    exact assignFrom_role_ne_none _ _ _ p (hperm2.mem_iff.mp hp)
  · show countRole (applyAssignments g.players.length 0 g.players shuffled) .PIRATE = _
    rw [countRole_applyAssignments _ _ _ _ hnd hperm, hlen]
    generalize g.players.length = n at h5 h12 ⊢
    interval_cases n <;> decide
  · show countRole (applyAssignments g.players.length 0 g.players shuffled) .CULT_LEADER = _
    rw [countRole_applyAssignments _ _ _ _ hnd hperm, hlen]
    generalize g.players.length = n at h5 h12 ⊢
    interval_cases n <;> decide
  · show countRole (applyAssignments g.players.length 0 g.players shuffled) .CULTIST = _
    rw [countRole_applyAssignments _ _ _ _ hnd hperm, hlen]
    generalize g.players.length = n at h5 h12 ⊢
    interval_cases n <;> decide
  · show countRole (applyAssignments g.players.length 0 g.players shuffled) .PIRATE + _ + _ + _ = _
    rw [countRole_applyAssignments _ _ _ _ hnd hperm,
      countRole_applyAssignments _ _ _ _ hnd hperm,
      countRole_applyAssignments _ _ _ _ hnd hperm,
      countRole_applyAssignments _ _ _ _ hnd hperm, hlen]
    generalize g.players.length = n at h5 h12 ⊢
    interval_cases n <;> decide
  · have hsne : shuffled ≠ [] := by
      intro h
      rw [h] at hlen
      simp at hlen
      omega
    obtain ⟨q, rest, hq⟩ := List.exists_cons_of_ne_nil hsne
    refine ⟨{ q with role := some (roleAt g.players.length 0) }, ?_, ?_, ?_⟩
    · show _ ∈ applyAssignments g.players.length 0 g.players shuffled
      rw [hperm2.mem_iff, hq]
      exact List.mem_cons_self _ _
    · rw [roleAt_zero]
    · show (shuffled.head?.map (fun p => p.userId)) = some q.userId
      rw [hq]
      rfl

/-- A five-player lobby for exercising assignRoles. -/
def gameC8 : GameState :=
  { channelId := "ch", hostId := "a",
    players := [mkPlayer "a" true 3, mkPlayer "b" true 3, mkPlayer "c" true 3,
      mkPlayer "d" true 3, mkPlayer "e" true 3],
    status := .WAITING, currentTurn := 0, currentPhase := .LOBBY,
    captain := none, lieutenant := none, navigator := none,
    shipPosition := (0, 0), cultLeader := none }

/-- Witness for C8: with five players (identity shuffle) the assignment yields
exactly two pirates. -/
theorem assignRoles_spec_witness :
    (gameC8.assignRoles gameC8.players).map (fun g' => countRole g'.players PlayerRole.PIRATE) =
      some 2 := by
  obtain ⟨g', hg, -, -, hp, -, -, -, -⟩ :=
    assignRoles_spec gameC8 gameC8.players (by decide) (by decide) (List.Perm.refl _) (by decide)
  rw [hg]
  have h2 : countRole g'.players PlayerRole.PIRATE = 2 := by
    rw [hp]
    decide
  show some (countRole g'.players PlayerRole.PIRATE) = some 2
  rw [h2]

end FeedTheKraken
